import Mathlib

set_option maxHeartbeats 1000000

/-! Verification development for a trade-API backend: a credential vault
(AES-256-CBC framing with base64/colon encoding over an abstract block
cipher), a swap-quote client, a user/wallet store model, and the two HTTP
trade endpoints with an explicit effect trace. -/

/-- Base64 alphabet: the character for a six-bit value. -/
def sextetChar (n : Nat) : Char :=
  if n < 26 then Char.ofNat (65 + n)
  else if n < 52 then Char.ofNat (97 + (n - 26))
  else if n < 62 then Char.ofNat (48 + (n - 52))
  else if n = 62 then '+'
  else '/'

/-- Base64 alphabet accepted by the Node decoder: the six-bit value of a
character, covering both the standard and the URL-safe alphabets; none for
characters outside the alphabet. -/
def b64Sextet (c : Char) : Option Nat :=
  if 65 ≤ c.toNat ∧ c.toNat ≤ 90 then some (c.toNat - 65)
  else if 97 ≤ c.toNat ∧ c.toNat ≤ 122 then some (c.toNat - 97 + 26)
  else if 48 ≤ c.toNat ∧ c.toNat ≤ 57 then some (c.toNat - 48 + 52)
  else if c = '+' ∨ c = '-' then some 62
  else if c = '/' ∨ c = '_' then some 63
  else none

/-- Standard base64 encoding of a byte list (with trailing padding characters). -/
def b64EncBytes : List Nat → List Char
  | [] => []
  | [a] => [sextetChar (a / 4), sextetChar (a % 4 * 16), '=', '=']
  | [a, b] => [sextetChar (a / 4), sextetChar (a % 4 * 16 + b / 16), sextetChar (b % 16 * 4), '=']
  | a :: b :: c :: rest =>
    sextetChar (a / 4) :: sextetChar (a % 4 * 16 + b / 16) ::
      sextetChar (b % 16 * 4 + c / 64) :: sextetChar (c % 64) :: b64EncBytes rest

/-- The sextet stream the Node base64 decoder reads from a string: characters
outside the alphabet are skipped and the first padding character stops
decoding. -/
def b64Filter : List Char → List Nat
  | [] => []
  | c :: cs =>
    if c = '=' then []
    else
      match b64Sextet c with
      | some s => s :: b64Filter cs
      | none => b64Filter cs

/-- Bytes of a sextet stream: each full group of four sextets yields three
bytes, a trailing pair yields one byte, a trailing triple yields two, and a
single leftover sextet is dropped. -/
def sextetsToBytes : List Nat → List Nat
  | s1 :: s2 :: s3 :: s4 :: rest =>
    (s1 * 4 + s2 / 16) :: (s2 % 16 * 16 + s3 / 4) :: (s3 % 4 * 64 + s4) :: sextetsToBytes rest
  | [s1, s2] => [s1 * 4 + s2 / 16]
  | [s1, s2, s3] => [s1 * 4 + s2 / 16, s2 % 16 * 16 + s3 / 4]
  | _ => []

/-- Base64 decoding with the lenient semantics of Node Buffer.from(s, base64),
the decoder decryptSecret uses at src/trade-api.js line 90: it never fails;
non-alphabet characters (including whitespace) are skipped, the URL-safe
alphabet is accepted, the first padding character stops decoding, and padding
is otherwise optional. -/
def b64DecBytes (l : List Char) : List Nat := sextetsToBytes (b64Filter l)

/-- Split a character list at every occurrence of a separator character, keeping empty parts. -/
def splitOnChar (c : Char) : List Char → List (List Char)
  | [] => [[]]
  | x :: xs =>
    if x = c then [] :: splitOnChar c xs
    else
      match splitOnChar c xs with
      | [] => [[x]]
      | p :: ps => (x :: p) :: ps

/-- An abstract 16-byte block cipher keyed by the process-wide 32-byte key;
the AES-256 primitive itself lives in the external crypto library. -/
structure BlockCipher where
  enc : List Nat → List Nat
  dec : List Nat → List Nat

/-- The contract the external block cipher satisfies: on 16-byte blocks,
decryption inverts encryption, and encryption again yields a 16-byte block. -/
def GoodCipher (bc : BlockCipher) : Prop :=
  ∀ b : List Nat, b.length = 16 → (∀ x ∈ b, x < 256) →
    bc.dec (bc.enc b) = b ∧ (bc.enc b).length = 16 ∧ ∀ x ∈ bc.enc b, x < 256

/-- Pointwise xor of two byte lists. -/
def xorBytes (a b : List Nat) : List Nat := List.zipWith (fun x y => x ^^^ y) a b

/-- CBC-mode encryption over a list of 16-byte blocks, chaining from the IV. -/
def cbcEncBlocks (bc : BlockCipher) : List Nat → List (List Nat) → List (List Nat)
  | _, [] => []
  | prev, b :: bs =>
    bc.enc (xorBytes prev b) :: cbcEncBlocks bc (bc.enc (xorBytes prev b)) bs

/-- CBC-mode decryption over a list of 16-byte blocks, chaining from the IV. -/
def cbcDecBlocks (bc : BlockCipher) : List Nat → List (List Nat) → List (List Nat)
  | _, [] => []
  | prev, c :: cs => xorBytes prev (bc.dec c) :: cbcDecBlocks bc c cs

/-- PKCS#7 padding to a multiple of 16 bytes. -/
def pkcs7pad (l : List Nat) : List Nat :=
  l ++ List.replicate (16 - l.length % 16) (16 - l.length % 16)

/-- PKCS#7 unpadding; none when the padding is invalid. -/
def pkcs7unpad (l : List Nat) : Option (List Nat) :=
  match l.getLast? with
  | none => none
  | some k =>
    if k = 0 ∨ 16 < k ∨ l.length < k then none
    else if (l.drop (l.length - k)).all (fun x => x == k) then some (l.take (l.length - k))
    else none

/-- Fuel-driven chunking of a byte list into blocks of 16. -/
def chunksAux : Nat → List Nat → List (List Nat)
  | 0, _ => []
  | _ + 1, [] => []
  | n + 1, a :: l => (a :: l).take 16 :: chunksAux n ((a :: l).drop 16)

/-- Chunk a byte list into blocks of 16 bytes. -/
def chunks16 (l : List Nat) : List (List Nat) := chunksAux l.length l

/-- Vault error kinds: a malformed two-part encoding, or a failure inside decryption. -/
inductive VaultErr
  | format
  | crypto
deriving DecidableEq

/-- Translation of encryptSecret (src/trade-api.js lines 76-83): CBC-encrypt
the PKCS#7-padded plaintext bytes under the given IV and return
base64(iv) ++ ":" ++ base64(ciphertext) as a character list. -/
def encryptSecret (bc : BlockCipher) (iv plainBytes : List Nat) : List Char :=
  b64EncBytes iv ++ ':' ::
    b64EncBytes (List.flatten (cbcEncBlocks bc iv (chunks16 (pkcs7pad plainBytes))))

/-- Translation of decryptSecret (src/trade-api.js lines 85-96): split on the
colon, require exactly two parts (format error otherwise), then base64-decode
IV and ciphertext with the lenient Node decoder, which never fails; the
remaining failures are the crypto errors thrown by createDecipheriv when the
decoded IV is not 16 bytes, and by decipher.final when the decoded ciphertext
is not a whole number of blocks or the padding is invalid. -/
def decryptSecret (bc : BlockCipher) (encryptedText : List Char) : Except VaultErr (List Nat) :=
  match splitOnChar ':' encryptedText with
  | [ivPart, ctPart] =>
    if (b64DecBytes ivPart).length = 16 then
      if (b64DecBytes ctPart).length % 16 = 0 then
        match pkcs7unpad (List.flatten (cbcDecBlocks bc (b64DecBytes ivPart)
            (chunks16 (b64DecBytes ctPart)))) with
        | some p => Except.ok p
        | none => Except.error VaultErr.crypto
      else Except.error VaultErr.crypto
    else Except.error VaultErr.crypto
  | _ => Except.error VaultErr.format

/-- The identity block cipher, a concrete instance of the cipher contract. -/
def idCipher : BlockCipher := ⟨fun b => b, fun b => b⟩

/-- A route returned by the quote aggregator, kept abstract as its JSON text. -/
abbrev Route := String

/-- Response of the aggregator quote call. -/
structure QuoteResp where
  ok : Bool
  statusText : String
  routes : Option (List Route)

/-- Response of the aggregator swap-build call. -/
structure SwapResp where
  ok : Bool
  statusText : String
  swapTransaction : Option String

/-- Errors of the swap-quote client, carrying the thrown message. -/
inductive JupErr
  | quote (msg : String)
  | swapBuild (msg : String)
deriving DecidableEq

/-- The external aggregator, as the two HTTP calls the client performs. -/
structure JupEnv where
  fetchQuote : String → String → Int → Rat → QuoteResp
  fetchSwap : Route → String → SwapResp

/-- Translation of getJupiterSwapTransaction (src/trade-api.js lines 114-142):
GET a quote, fail unless it succeeds with at least one route, POST the first
route with the payer public key, fail unless the response carries the
transaction payload. -/
def getJupiterSwapTransaction (jup : JupEnv) (userPublicKey inputMint outputMint : String)
    (amount : Int) (slippage : Rat) : Except JupErr String :=
  let quoteResponse := jup.fetchQuote inputMint outputMint amount slippage
  if quoteResponse.ok = false then
    Except.error (JupErr.quote ("Jupiter quote API error: " ++ quoteResponse.statusText))
  else
    match quoteResponse.routes with
    | none => Except.error (JupErr.quote "No swap routes found from Jupiter.")
    | some [] => Except.error (JupErr.quote "No swap routes found from Jupiter.")
    | some (route :: _) =>
      let swapResponse := jup.fetchSwap route userPublicKey
      if swapResponse.ok = false then
        Except.error (JupErr.swapBuild ("Jupiter swap API error: " ++ swapResponse.statusText))
      else
        match swapResponse.swapTransaction with
        | none => Except.error (JupErr.swapBuild "Failed to obtain swap transaction from Jupiter.")
        | some tx => Except.ok tx

/-- A stored wallet: label, public key, and the encrypted secret key string. -/
structure Wallet where
  label : String
  publicKey : String
  secretKey : List Char
deriving DecidableEq

/-- Per-direction default trade settings. -/
structure TradeSettings where
  slippage : Rat
  tradeAmount : Rat
deriving DecidableEq

/-- Buy and sell default settings of a user. -/
structure Settings where
  buy : TradeSettings
  sell : TradeSettings
deriving DecidableEq

/-- A persisted user record (models/User.js). -/
structure UserRec where
  telegramId : String
  wallets : List Wallet
  activeWalletIndex : Int
  settings : Settings
deriving DecidableEq

/-- Body of an HTTP response from the facade. -/
inductive RespBody
  | err (msg : String)
  | success (signature : String)
deriving DecidableEq

/-- An HTTP response: status code and JSON body. -/
structure Resp where
  status : Nat
  body : RespBody
deriving DecidableEq

/-- Count of the externally visible effects a request handler performed. -/
structure Trace where
  storeCalls : Nat
  aggregatorCalls : Nat
  signCalls : Nat
  broadcastCalls : Nat
  confirmCalls : Nat
deriving DecidableEq

/-- The empty effect trace. -/
def tr0 : Trace := ⟨0, 0, 0, 0, 0⟩

/-- The JSON body of a trade request; absent fields are none. -/
structure TradeReq where
  telegramId : Option String
  tradeAmount : Option Rat
  slippage : Option Rat
  inputMint : Option String
  outputMint : Option String

/-- JavaScript falsiness of an optional string: absent or empty. -/
def falsyS : Option String → Bool
  | none => true
  | some s => decide (s = "")

/-- JavaScript falsiness of an optional number: absent or zero. -/
def falsyN : Option Rat → Bool
  | none => true
  | some q => decide (q = 0)

/-- The ambient services of a request handler: cipher, store, key parsing and
reconstruction, aggregator, and chain-network calls. -/
structure Env where
  bc : BlockCipher
  findUser : String → Option UserRec
  parsePublicKey : String → Option String
  bs58decode : List Nat → Option (List Nat)
  keypairPub : List Nat → Option String
  jup : JupEnv
  txFrom : String → Option String
  signSerialize : String → List Nat → Option String
  sendRaw : String → Except String String
  confirmTx : String → Except String Unit

/-- JavaScript array indexing with a possibly negative integer index. -/
def jsIndex (l : List Wallet) (i : Int) : Option Wallet :=
  if i < 0 then none else l[i.toNat]?

/-- Floor of a rational, matching the JavaScript Math.floor (round toward
negative infinity). -/
def mathFloor (q : Rat) : Int := ⌊q⌋

/-- Translation of the amount conversion (src/trade-api.js line 175):
Math.floor of the trade amount times LAMPORTS_PER_SOL, which is 10^9. -/
def amountBaseUnits (tradeAmount : Rat) : Int :=
  mathFloor (tradeAmount * 1000000000)

/-- Error message surfaced for each vault error kind. -/
def vaultErrMsg : VaultErr → String
  | VaultErr.format => "Invalid encrypted text format"
  | VaultErr.crypto => "bad decrypt"

/-- Error message surfaced for each swap-quote client error. -/
def jupErrMsg : JupErr → String
  | JupErr.quote m => m
  | JupErr.swapBuild m => m

/-- Translation of the /api/buy handler (src/trade-api.js lines 158-187).
Every thrown error is caught by the surrounding try/catch and becomes a 500
response; the trace records which external effects were performed. -/
def apiBuy (env : Env) (req : TradeReq) : Resp × Trace :=
  if falsyS req.telegramId || falsyN req.tradeAmount || falsyN req.slippage ||
      falsyS req.inputMint || falsyS req.outputMint then
    (⟨400, RespBody.err "Missing required fields."⟩, ⟨0, 0, 0, 0, 0⟩)
  else
    match env.findUser (req.telegramId.getD "") with
    | none => (⟨400, RespBody.err "User not found or no wallets available."⟩, ⟨1, 0, 0, 0, 0⟩)
    | some user =>
      if user.wallets.length = 0 then
        (⟨400, RespBody.err "User not found or no wallets available."⟩, ⟨1, 0, 0, 0, 0⟩)
      else
        match jsIndex user.wallets user.activeWalletIndex with
        | none =>
          (⟨500, RespBody.err "Cannot read properties of undefined (reading 'publicKey')"⟩,
            ⟨1, 0, 0, 0, 0⟩)
        | some activeWallet =>
          match env.parsePublicKey activeWallet.publicKey with
          | none => (⟨500, RespBody.err "Invalid public key input"⟩, ⟨1, 0, 0, 0, 0⟩)
          | some publicKey =>
            match decryptSecret env.bc activeWallet.secretKey with
            | Except.error e => (⟨500, RespBody.err (vaultErrMsg e)⟩, ⟨1, 0, 0, 0, 0⟩)
            | Except.ok decryptedSecret =>
              match env.bs58decode decryptedSecret with
              | none => (⟨500, RespBody.err "Non-base58 character"⟩, ⟨1, 0, 0, 0, 0⟩)
              | some secretRaw =>
                match env.keypairPub secretRaw with
                | none => (⟨500, RespBody.err "bad secret key size"⟩, ⟨1, 0, 0, 0, 0⟩)
                | some keypairPublicKey =>
                  if keypairPublicKey ≠ publicKey then
                    (⟨500, RespBody.err "Wallet decryption error: public key mismatch."⟩,
                      ⟨1, 0, 0, 0, 0⟩)
                  else
                    match getJupiterSwapTransaction env.jup keypairPublicKey
                        (req.inputMint.getD "") (req.outputMint.getD "")
                        (amountBaseUnits (req.tradeAmount.getD 0)) (req.slippage.getD 0) with
                    | Except.error e => (⟨500, RespBody.err (jupErrMsg e)⟩, ⟨1, 1, 0, 0, 0⟩)
                    | Except.ok swapTxBase64 =>
                      match env.txFrom swapTxBase64 with
                      | none =>
                        (⟨500, RespBody.err "Transaction deserialization error"⟩, ⟨1, 1, 0, 0, 0⟩)
                      | some swapTransaction =>
                        match env.signSerialize swapTransaction secretRaw with
                        | none => (⟨500, RespBody.err "Signing error"⟩, ⟨1, 1, 1, 0, 0⟩)
                        | some rawTx =>
                          match env.sendRaw rawTx with
                          | Except.error msg => (⟨500, RespBody.err msg⟩, ⟨1, 1, 1, 1, 0⟩)
                          | Except.ok signature =>
                            match env.confirmTx signature with
                            | Except.error msg => (⟨500, RespBody.err msg⟩, ⟨1, 1, 1, 1, 1⟩)
                            | Except.ok _ =>
                              (⟨200, RespBody.success signature⟩, ⟨1, 1, 1, 1, 1⟩)

/-- Translation of the /api/sell handler (src/trade-api.js lines 194-223); the
source duplicates the buy handler body verbatim. -/
def apiSell (env : Env) (req : TradeReq) : Resp × Trace :=
  if falsyS req.telegramId || falsyN req.tradeAmount || falsyN req.slippage ||
      falsyS req.inputMint || falsyS req.outputMint then
    (⟨400, RespBody.err "Missing required fields."⟩, ⟨0, 0, 0, 0, 0⟩)
  else
    match env.findUser (req.telegramId.getD "") with
    | none => (⟨400, RespBody.err "User not found or no wallets available."⟩, ⟨1, 0, 0, 0, 0⟩)
    | some user =>
      if user.wallets.length = 0 then
        (⟨400, RespBody.err "User not found or no wallets available."⟩, ⟨1, 0, 0, 0, 0⟩)
      else
        match jsIndex user.wallets user.activeWalletIndex with
        | none =>
          (⟨500, RespBody.err "Cannot read properties of undefined (reading 'publicKey')"⟩,
            ⟨1, 0, 0, 0, 0⟩)
        | some activeWallet =>
          match env.parsePublicKey activeWallet.publicKey with
          | none => (⟨500, RespBody.err "Invalid public key input"⟩, ⟨1, 0, 0, 0, 0⟩)
          | some publicKey =>
            match decryptSecret env.bc activeWallet.secretKey with
            | Except.error e => (⟨500, RespBody.err (vaultErrMsg e)⟩, ⟨1, 0, 0, 0, 0⟩)
            | Except.ok decryptedSecret =>
              match env.bs58decode decryptedSecret with
              | none => (⟨500, RespBody.err "Non-base58 character"⟩, ⟨1, 0, 0, 0, 0⟩)
              | some secretRaw =>
                match env.keypairPub secretRaw with
                | none => (⟨500, RespBody.err "bad secret key size"⟩, ⟨1, 0, 0, 0, 0⟩)
                | some keypairPublicKey =>
                  if keypairPublicKey ≠ publicKey then
                    (⟨500, RespBody.err "Wallet decryption error: public key mismatch."⟩,
                      ⟨1, 0, 0, 0, 0⟩)
                  else
                    match getJupiterSwapTransaction env.jup keypairPublicKey
                        (req.inputMint.getD "") (req.outputMint.getD "")
                        (amountBaseUnits (req.tradeAmount.getD 0)) (req.slippage.getD 0) with
                    | Except.error e => (⟨500, RespBody.err (jupErrMsg e)⟩, ⟨1, 1, 0, 0, 0⟩)
                    | Except.ok swapTxBase64 =>
                      match env.txFrom swapTxBase64 with
                      | none =>
                        (⟨500, RespBody.err "Transaction deserialization error"⟩, ⟨1, 1, 0, 0, 0⟩)
                      | some swapTransaction =>
                        match env.signSerialize swapTransaction secretRaw with
                        | none => (⟨500, RespBody.err "Signing error"⟩, ⟨1, 1, 1, 0, 0⟩)
                        | some rawTx =>
                          match env.sendRaw rawTx with
                          | Except.error msg => (⟨500, RespBody.err msg⟩, ⟨1, 1, 1, 1, 0⟩)
                          | Except.ok signature =>
                            match env.confirmTx signature with
                            | Except.error msg => (⟨500, RespBody.err msg⟩, ⟨1, 1, 1, 1, 1⟩)
                            | Except.ok _ =>
                              (⟨200, RespBody.success signature⟩, ⟨1, 1, 1, 1, 1⟩)

/-- Translation of the checkApiKey middleware (src/trade-api.js lines 63-69):
some response means the request is rejected before reaching any route. -/
def checkApiKey (apiKey : String) (providedKey : Option String) : Option Resp :=
  if falsyS providedKey = true ∨ providedKey ≠ some apiKey then
    some ⟨401, RespBody.err "Unauthorized: Invalid API key"⟩
  else none

/-- The whole facade on one inbound request: the api-key middleware runs
first on every route, then the request is dispatched by path. -/
def appHandle (env : Env) (apiKey : String) (hdr : Option String) (path : String)
    (req : TradeReq) : Resp × Trace :=
  match checkApiKey apiKey hdr with
  | some r => (r, ⟨0, 0, 0, 0, 0⟩)
  | none =>
    if path = "/api/buy" then apiBuy env req
    else if path = "/api/sell" then apiSell env req
    else (⟨404, RespBody.err "Not Found"⟩, ⟨0, 0, 0, 0, 0⟩)

/-- Truncation toward zero of a rational, as the specification words it. -/
def truncTowardZero (q : Rat) : Int :=
  if q < 0 then -(mathFloor (-q)) else mathFloor q

/-- Decoding inverts the alphabet on six-bit values, and the alphabet avoids
the colon separator and the padding character. -/
theorem sextet_facts : ∀ n < 64, b64Sextet (sextetChar n) = some n ∧
    sextetChar n ≠ ':' ∧ sextetChar n ≠ '=' := by decide

/-- Lenient base64 decoding inverts base64 encoding on byte lists: the encoder
emits only alphabet characters, with padding characters only at the very end. -/
theorem b64_roundtrip : ∀ l : List Nat, (∀ x ∈ l, x < 256) →
    b64DecBytes (b64EncBytes l) = l
  | [] => fun _ => rfl
  | [a] => fun h => by
    have ha : a < 256 := h a (by simp)
    have h1 := sextet_facts (a / 4) (by omega)
    have h2 := sextet_facts (a % 4 * 16) (by omega)
    have e1 : a / 4 * 4 + a % 4 * 16 / 16 = a := by omega
    simp [b64EncBytes, b64DecBytes, b64Filter, sextetsToBytes, h1.1, h1.2.2, h2.1, h2.2.2, e1]
    all_goals omega
  | [a, b] => fun h => by
    have ha : a < 256 := h a (by simp)
    have hb : b < 256 := h b (by simp)
    have h1 := sextet_facts (a / 4) (by omega)
    have h2 := sextet_facts (a % 4 * 16 + b / 16) (by omega)
    have h3 := sextet_facts (b % 16 * 4) (by omega)
    have e1 : a / 4 * 4 + (a % 4 * 16 + b / 16) / 16 = a := by omega
    have e2 : (a % 4 * 16 + b / 16) % 16 * 16 + b % 16 * 4 / 4 = b := by omega
    simp [b64EncBytes, b64DecBytes, b64Filter, sextetsToBytes, h1.1, h1.2.2, h2.1, h2.2.2,
      h3.1, h3.2.2, e1, e2]
    all_goals omega
  | [a, b, c] => fun h => by
    have ha : a < 256 := h a (by simp)
    have hb : b < 256 := h b (by simp)
    have hc : c < 256 := h c (by simp)
    have h1 := sextet_facts (a / 4) (by omega)
    have h2 := sextet_facts (a % 4 * 16 + b / 16) (by omega)
    have h3 := sextet_facts (b % 16 * 4 + c / 64) (by omega)
    have h4 := sextet_facts (c % 64) (by omega)
    have e1 : a / 4 * 4 + (a % 4 * 16 + b / 16) / 16 = a := by omega
    have e2 : (a % 4 * 16 + b / 16) % 16 * 16 + (b % 16 * 4 + c / 64) / 4 = b := by omega
    have e3 : (b % 16 * 4 + c / 64) % 4 * 64 + c % 64 = c := by omega
    simp [b64EncBytes, b64DecBytes, b64Filter, sextetsToBytes, h1.1, h1.2.2, h2.1, h2.2.2,
      h3.1, h3.2.2, h4.1, h4.2.2, e1, e2, e3]
  | a :: b :: c :: d :: rest => fun h => by
    have ha : a < 256 := h a (by simp)
    have hb : b < 256 := h b (by simp)
    have hc : c < 256 := h c (by simp)
    have ih := b64_roundtrip (d :: rest) (fun x hx => h x (by simp [hx]))
    simp only [b64DecBytes] at ih
    have h1 := sextet_facts (a / 4) (by omega)
    have h2 := sextet_facts (a % 4 * 16 + b / 16) (by omega)
    have h3 := sextet_facts (b % 16 * 4 + c / 64) (by omega)
    have h4 := sextet_facts (c % 64) (by omega)
    have e1 : a / 4 * 4 + (a % 4 * 16 + b / 16) / 16 = a := by omega
    have e2 : (a % 4 * 16 + b / 16) % 16 * 16 + (b % 16 * 4 + c / 64) / 4 = b := by omega
    have e3 : (b % 16 * 4 + c / 64) % 4 * 64 + c % 64 = c := by omega
    simp [b64EncBytes, b64DecBytes, b64Filter, sextetsToBytes, h1.1, h1.2.2, h2.1, h2.2.2,
      h3.1, h3.2.2, h4.1, h4.2.2, ih, e1, e2, e3]

/-- Every character of a base64 encoding of bytes differs from the colon. -/
theorem b64Enc_ne_colon : ∀ l : List Nat, (∀ x ∈ l, x < 256) →
    ∀ ch ∈ b64EncBytes l, ch ≠ ':'
  | [] => by intro _ ch hch; simp [b64EncBytes] at hch
  | [a] => fun h ch hch => by
    have ha : a < 256 := h a (by simp)
    have h1 := sextet_facts (a / 4) (by omega)
    have h2 := sextet_facts (a % 4 * 16) (by omega)
    simp only [b64EncBytes, List.mem_cons, List.not_mem_nil, or_false] at hch
    rcases hch with rfl | rfl | rfl | rfl
    · exact h1.2.1
    · exact h2.2.1
    · decide
    · decide
  | [a, b] => fun h ch hch => by
    have ha : a < 256 := h a (by simp)
    have hb : b < 256 := h b (by simp)
    have h1 := sextet_facts (a / 4) (by omega)
    have h2 := sextet_facts (a % 4 * 16 + b / 16) (by omega)
    have h3 := sextet_facts (b % 16 * 4) (by omega)
    simp only [b64EncBytes, List.mem_cons, List.not_mem_nil, or_false] at hch
    rcases hch with rfl | rfl | rfl | rfl
    · exact h1.2.1
    · exact h2.2.1
    · exact h3.2.1
    · decide
  | a :: b :: c :: d :: rest => fun h ch hch => by
    have ha : a < 256 := h a (by simp)
    have hb : b < 256 := h b (by simp)
    have hc : c < 256 := h c (by simp)
    have ih := b64Enc_ne_colon (d :: rest) (fun x hx => h x (by simp [hx]))
    have h1 := sextet_facts (a / 4) (by omega)
    have h2 := sextet_facts (a % 4 * 16 + b / 16) (by omega)
    have h3 := sextet_facts (b % 16 * 4 + c / 64) (by omega)
    have h4 := sextet_facts (c % 64) (by omega)
    simp only [b64EncBytes, List.mem_cons] at hch
    rcases hch with rfl | rfl | rfl | rfl | hch
    · exact h1.2.1
    · exact h2.2.1
    · exact h3.2.1
    · exact h4.2.1
    · exact ih ch hch
  | [a, b, c] => fun h ch hch => by
    have ha : a < 256 := h a (by simp)
    have hb : b < 256 := h b (by simp)
    have hc : c < 256 := h c (by simp)
    have h1 := sextet_facts (a / 4) (by omega)
    have h2 := sextet_facts (a % 4 * 16 + b / 16) (by omega)
    have h3 := sextet_facts (b % 16 * 4 + c / 64) (by omega)
    have h4 := sextet_facts (c % 64) (by omega)
    simp only [b64EncBytes, List.mem_cons, List.not_mem_nil, or_false] at hch
    rcases hch with rfl | rfl | rfl | rfl
    · exact h1.2.1
    · exact h2.2.1
    · exact h3.2.1
    · exact h4.2.1

/-- Splitting a list that avoids the separator yields that single part. -/
theorem splitOnChar_not_mem {c : Char} : ∀ {l : List Char}, c ∉ l → splitOnChar c l = [l]
  | [], _ => rfl
  | x :: xs, h => by
    have hx : ¬x = c := fun e => h (by simp [e])
    have ih : splitOnChar c xs = [xs] :=
      splitOnChar_not_mem (fun hm => h (List.mem_cons_of_mem x hm))
    simp only [splitOnChar, if_neg hx, ih]

/-- Splitting an appended separator-free part peels it off as the first part. -/
theorem splitOnChar_append {c : Char} : ∀ (a b : List Char), c ∉ a →
    splitOnChar c (a ++ c :: b) = a :: splitOnChar c b
  | [], b, _ => by simp [splitOnChar]
  | x :: a, b, h => by
    have hx : ¬x = c := fun e => h (by simp [e])
    have ih := splitOnChar_append a b (fun hm => h (List.mem_cons_of_mem x hm))
    simp only [List.cons_append, splitOnChar, if_neg hx, List.append_eq, ih]

/-- The last element of a nonempty replicate is the replicated value. -/
theorem getLast?_replicate (x : Nat) : ∀ n, 1 ≤ n → (List.replicate n x).getLast? = some x
  | 0, h => by omega
  | 1, _ => rfl
  | n + 2, _ => by
    rw [List.replicate_succ, List.replicate_succ, List.getLast?_cons_cons,
      ← List.replicate_succ]
    exact getLast?_replicate x (n + 1) (by omega)

/-- Unpadding inverts PKCS#7 padding. -/
theorem pkcs7_unpad_pad (l : List Nat) : pkcs7unpad (pkcs7pad l) = some l := by
  have hklb : 1 ≤ 16 - l.length % 16 := by omega
  have hlast : (l ++ List.replicate (16 - l.length % 16) (16 - l.length % 16)).getLast?
      = some (16 - l.length % 16) := by
    rw [List.getLast?_append_of_ne_nil]
    · exact getLast?_replicate _ _ hklb
    · intro hnil
      have hc := congrArg List.length hnil
      simp at hc
      omega
  have hlen : (l ++ List.replicate (16 - l.length % 16) (16 - l.length % 16)).length
      = l.length + (16 - l.length % 16) := by simp
  have hall : (List.replicate (16 - l.length % 16) (16 - l.length % 16)).all
      (fun x => x == 16 - l.length % 16) = true := by
    simp [List.all_eq_true, List.mem_replicate]
  have hsub : l.length + (16 - l.length % 16) - (16 - l.length % 16) = l.length := by omega
  simp only [pkcs7pad, pkcs7unpad, hlast, hlen, hsub]
  rw [if_neg (by omega)]
  rw [List.drop_left, if_pos hall, List.take_left]

/-- Length of a pointwise xor. -/
theorem xorBytes_length (a b : List Nat) : (xorBytes a b).length = min a.length b.length := by
  simp [xorBytes]

/-- Xoring twice with the same equal-length list is the identity. -/
theorem xorBytes_xorBytes : ∀ (a b : List Nat), a.length = b.length →
    xorBytes a (xorBytes a b) = b
  | [], [], _ => rfl
  | [], _ :: _, h => by simp at h
  | _ :: _, [], h => by simp at h
  | x :: a, y :: b, h => by
    simp only [xorBytes, List.zipWith_cons_cons]
    rw [Nat.xor_cancel_left]
    have ih := xorBytes_xorBytes a b (by simpa using h)
    simp only [xorBytes] at ih
    rw [ih]

/-- Pointwise xor of byte lists stays below 256. -/
theorem xorBytes_lt : ∀ (a b : List Nat), (∀ x ∈ a, x < 256) → (∀ x ∈ b, x < 256) →
    ∀ x ∈ xorBytes a b, x < 256
  | [], _, _, _ => by simp [xorBytes]
  | _ :: _, [], _, _ => by simp [xorBytes]
  | x :: a, y :: b, ha, hb => by
    simp only [xorBytes, List.zipWith_cons_cons, List.mem_cons]
    rintro z (rfl | hz)
    · have hx : x < 2 ^ 8 := by have := ha x (by simp); omega
      have hy : y < 2 ^ 8 := by have := hb y (by simp); omega
      have hlt : x ^^^ y < 2 ^ 8 := Nat.xor_lt_two_pow hx hy
      omega
    · exact xorBytes_lt a b (fun u hu => ha u (by simp [hu]))
        (fun u hu => hb u (by simp [hu])) z hz

/-- CBC encryption of good 16-byte blocks yields good 16-byte blocks. -/
theorem cbcEncBlocks_good (bc : BlockCipher) (hbc : GoodCipher bc) :
    ∀ (bs : List (List Nat)) (prev : List Nat), prev.length = 16 → (∀ x ∈ prev, x < 256) →
      (∀ b ∈ bs, b.length = 16 ∧ ∀ x ∈ b, x < 256) →
      ∀ cb ∈ cbcEncBlocks bc prev bs, cb.length = 16 ∧ ∀ x ∈ cb, x < 256
  | [], _, _, _, _ => by simp [cbcEncBlocks]
  | b :: bs, prev, hp16, hpB, hbs => by
    have hb := hbs b (by simp)
    have hxlen : (xorBytes prev b).length = 16 := by
      rw [xorBytes_length, hp16, hb.1]; simp
    have hxB : ∀ x ∈ xorBytes prev b, x < 256 := xorBytes_lt prev b hpB hb.2
    have hgood := hbc (xorBytes prev b) hxlen hxB
    intro cb hcb
    simp only [cbcEncBlocks, List.mem_cons] at hcb
    rcases hcb with rfl | hcb
    · exact ⟨hgood.2.1, hgood.2.2⟩
    · exact cbcEncBlocks_good bc hbc bs (bc.enc (xorBytes prev b)) hgood.2.1 hgood.2.2
        (fun b' hb' => hbs b' (List.mem_cons_of_mem b hb')) cb hcb

/-- CBC decryption inverts CBC encryption under the cipher contract. -/
theorem cbcDec_cbcEnc (bc : BlockCipher) (hbc : GoodCipher bc) :
    ∀ (bs : List (List Nat)) (prev : List Nat), prev.length = 16 → (∀ x ∈ prev, x < 256) →
      (∀ b ∈ bs, b.length = 16 ∧ ∀ x ∈ b, x < 256) →
      cbcDecBlocks bc prev (cbcEncBlocks bc prev bs) = bs
  | [], _, _, _, _ => rfl
  | b :: bs, prev, hp16, hpB, hbs => by
    have hb := hbs b (by simp)
    have hxlen : (xorBytes prev b).length = 16 := by
      rw [xorBytes_length, hp16, hb.1]; simp
    have hxB : ∀ x ∈ xorBytes prev b, x < 256 := xorBytes_lt prev b hpB hb.2
    have hgood := hbc (xorBytes prev b) hxlen hxB
    simp only [cbcEncBlocks, cbcDecBlocks]
    rw [hgood.1, xorBytes_xorBytes prev b (by omega)]
    rw [cbcDec_cbcEnc bc hbc bs (bc.enc (xorBytes prev b)) hgood.2.1 hgood.2.2
      (fun b' hb' => hbs b' (List.mem_cons_of_mem b hb'))]

/-- Length of flattening a list of 16-byte blocks. -/
theorem flatten_blocks_length : ∀ bs : List (List Nat), (∀ b ∈ bs, b.length = 16) →
    (List.flatten bs).length = 16 * bs.length
  | [], _ => rfl
  | b :: bs, h => by
    simp only [List.flatten_cons, List.length_append, List.length_cons]
    rw [flatten_blocks_length bs (fun b' hb' => h b' (List.mem_cons_of_mem b hb')),
      h b (by simp)]
    ring

/-- Flattening blocks of bytes below 256 yields bytes below 256. -/
theorem flatten_blocks_lt (bs : List (List Nat)) (h : ∀ b ∈ bs, ∀ x ∈ b, x < 256) :
    ∀ x ∈ List.flatten bs, x < 256 := by
  intro x hx
  rw [List.mem_flatten] at hx
  obtain ⟨b, hb, hxb⟩ := hx
  exact h b hb x hxb

/-- Chunking the flattening of 16-byte blocks recovers the blocks. -/
theorem chunksAux_flatten : ∀ (bs : List (List Nat)) (fuel : Nat),
    (∀ b ∈ bs, b.length = 16) → bs.length ≤ fuel →
    chunksAux fuel (List.flatten bs) = bs
  | [], fuel, _, _ => by cases fuel <;> rfl
  | b :: bs, fuel, h, hf => by
    have hb : b.length = 16 := h b (by simp)
    cases fuel with
    | zero => simp at hf
    | succ f =>
      obtain ⟨a, b', rfl⟩ : ∃ a b'', b = a :: b'' := by
        cases b with
        | nil => simp at hb
        | cons a t => exact ⟨a, t, rfl⟩
      simp only [List.flatten_cons, List.cons_append, chunksAux, List.append_eq]
      rw [← List.cons_append, List.take_left' hb, List.drop_left' hb]
      rw [chunksAux_flatten bs f (fun b'' hb'' => h b'' (List.mem_cons_of_mem _ hb''))
        (by simpa using hf)]

/-- Chunking the flattening of 16-byte blocks recovers the blocks. -/
theorem chunks16_flatten (bs : List (List Nat)) (h : ∀ b ∈ bs, b.length = 16) :
    chunks16 (List.flatten bs) = bs := by
  unfold chunks16
  apply chunksAux_flatten bs _ h
  rw [flatten_blocks_length bs h]
  omega

/-- Flattening the chunks of a list recovers the list. -/
theorem flatten_chunksAux : ∀ (fuel : Nat) (l : List Nat), l.length ≤ fuel →
    List.flatten (chunksAux fuel l) = l
  | 0, l, h => by
    have hl : l = [] := List.eq_nil_of_length_eq_zero (by omega)
    subst hl; rfl
  | f + 1, [], _ => rfl
  | f + 1, a :: l, h => by
    have h' : l.length + 1 ≤ f + 1 := by simpa using h
    simp only [chunksAux, List.flatten_cons]
    rw [flatten_chunksAux f ((a :: l).drop 16)
      (by simp only [List.length_drop, List.length_cons]; omega)]
    exact List.take_append_drop 16 (a :: l)

/-- Flattening the 16-byte chunks of a list recovers the list. -/
theorem flatten_chunks16 (l : List Nat) : List.flatten (chunks16 l) = l :=
  flatten_chunksAux l.length l (le_refl _)

/-- Chunks of a list whose length is a multiple of 16 all have length 16. -/
theorem chunksAux_mem_length : ∀ (fuel : Nat) (l : List Nat), l.length ≤ fuel →
    l.length % 16 = 0 → ∀ b ∈ chunksAux fuel l, b.length = 16
  | 0, l, _, _ => by simp [chunksAux]
  | f + 1, [], _, _ => by simp [chunksAux]
  | f + 1, a :: l, h, hm => by
    have h' : l.length + 1 ≤ f + 1 := by simpa using h
    have hm' : (l.length + 1) % 16 = 0 := by simpa using hm
    intro b hb
    simp only [chunksAux, List.mem_cons] at hb
    rcases hb with rfl | hb
    · simp only [List.length_take, List.length_cons]
      omega
    · apply chunksAux_mem_length f ((a :: l).drop 16) _ _ b hb
      · simp only [List.length_drop, List.length_cons]; omega
      · simp only [List.length_drop, List.length_cons]; omega

/-- Every element of every chunk is an element of the chunked list. -/
theorem chunksAux_mem_mem : ∀ (fuel : Nat) (l b : List Nat),
    b ∈ chunksAux fuel l → ∀ x ∈ b, x ∈ l
  | 0, l, b, hb => by simp [chunksAux] at hb
  | f + 1, [], b, hb => by simp [chunksAux] at hb
  | f + 1, a :: l, b, hb => by
    simp only [chunksAux, List.mem_cons] at hb
    rcases hb with rfl | hb
    · intro x hx
      exact List.take_subset 16 (a :: l) hx
    · intro x hx
      exact List.drop_subset 16 (a :: l) (chunksAux_mem_mem f _ b hb x hx)

/-- Padded plaintext has length a multiple of 16. -/
theorem pkcs7pad_mod (l : List Nat) : (pkcs7pad l).length % 16 = 0 := by
  simp only [pkcs7pad, List.length_append, List.length_replicate]
  omega

/-- Padding preserves the byte bound. -/
theorem pkcs7pad_lt (l : List Nat) (h : ∀ x ∈ l, x < 256) : ∀ x ∈ pkcs7pad l, x < 256 := by
  intro x hx
  simp only [pkcs7pad, List.mem_append] at hx
  rcases hx with hx | hx
  · exact h x hx
  · have := List.eq_of_mem_replicate hx
    omega

/-- C1: decrypting the encryption of any plaintext byte string returns the
plaintext, for every 16-byte IV and every cipher meeting the block-cipher
contract (the round-trip equation of the credential vault). -/
theorem C1_encrypt_decrypt_roundtrip (bc : BlockCipher) (hbc : GoodCipher bc)
    (iv P : List Nat) (hivLen : iv.length = 16) (hivB : ∀ x ∈ iv, x < 256)
    (hP : ∀ x ∈ P, x < 256) :
    decryptSecret bc (encryptSecret bc iv P) = Except.ok P := by
  have hblocks : ∀ b ∈ chunks16 (pkcs7pad P), b.length = 16 ∧ ∀ x ∈ b, x < 256 := by
    intro b hb
    refine ⟨chunksAux_mem_length _ _ (le_refl _) (pkcs7pad_mod P) b hb, ?_⟩
    intro x hx
    exact pkcs7pad_lt P hP x (chunksAux_mem_mem _ _ b hb x hx)
  have hct : ∀ cb ∈ cbcEncBlocks bc iv (chunks16 (pkcs7pad P)),
      cb.length = 16 ∧ ∀ x ∈ cb, x < 256 :=
    cbcEncBlocks_good bc hbc _ iv hivLen hivB hblocks
  have hctLen16 : ∀ cb ∈ cbcEncBlocks bc iv (chunks16 (pkcs7pad P)), cb.length = 16 :=
    fun cb hcb => (hct cb hcb).1
  have hctB : ∀ x ∈ List.flatten (cbcEncBlocks bc iv (chunks16 (pkcs7pad P))), x < 256 :=
    flatten_blocks_lt _ (fun b hb => (hct b hb).2)
  have hsplit : splitOnChar ':' (encryptSecret bc iv P)
      = [b64EncBytes iv,
         b64EncBytes (List.flatten (cbcEncBlocks bc iv (chunks16 (pkcs7pad P))))] := by
    unfold encryptSecret
    rw [splitOnChar_append _ _ (fun hm => (b64Enc_ne_colon iv hivB ':' hm) rfl)]
    rw [splitOnChar_not_mem (fun hm => (b64Enc_ne_colon _ hctB ':' hm) rfl)]
  have hctModLen : (List.flatten (cbcEncBlocks bc iv (chunks16 (pkcs7pad P)))).length % 16 = 0 := by
    rw [flatten_blocks_length _ hctLen16]
    omega
  have hchunksCt : chunks16 (List.flatten (cbcEncBlocks bc iv (chunks16 (pkcs7pad P))))
      = cbcEncBlocks bc iv (chunks16 (pkcs7pad P)) := chunks16_flatten _ hctLen16
  have hdec : cbcDecBlocks bc iv (cbcEncBlocks bc iv (chunks16 (pkcs7pad P)))
      = chunks16 (pkcs7pad P) := cbcDec_cbcEnc bc hbc _ iv hivLen hivB hblocks
  simp only [decryptSecret, hsplit, b64_roundtrip iv hivB, b64_roundtrip _ hctB, hivLen,
    hctModLen, hchunksCt, hdec, flatten_chunks16, pkcs7_unpad_pad, if_true]

/-- The identity cipher satisfies the block-cipher contract. -/
theorem idCipher_good : GoodCipher idCipher := fun _ hl hb => ⟨rfl, hl, hb⟩

/-- Witness for the vault round trip at a concrete cipher, IV and plaintext. -/
theorem C1_encrypt_decrypt_roundtrip_witness :
    decryptSecret idCipher (encryptSecret idCipher (List.replicate 16 0) [104, 105])
      = Except.ok [104, 105] :=
  C1_encrypt_decrypt_roundtrip idCipher idCipher_good (List.replicate 16 0) [104, 105]
    (by decide) (by decide) (by decide)

/-- The concrete ciphertext bytes behind the concrete encrypted secret used
by the witnesses: the PKCS#7-padded plaintext [1, 2, 3] CBC-encrypted under
the identity cipher and the all-zero IV. -/
def ctBytesW : List Nat :=
  List.flatten (cbcEncBlocks idCipher (List.replicate 16 0) (chunks16 (pkcs7pad [1, 2, 3])))

/-- C8 as stated fails on the code: prepending the non-alphabet character
exclamation mark to a valid encoded secret makes its IV segment non-base64,
yet decryption still succeeds and returns the original plaintext, because the
Node base64 decoder at src/trade-api.js line 90 silently skips characters
outside the alphabet instead of failing. -/
theorem C8_decrypt_malformed_counterexample :
    b64Sextet '!' = none
    ∧ splitOnChar ':' ('!' :: encryptSecret idCipher (List.replicate 16 0) [1, 2, 3])
      = ['!' :: b64EncBytes (List.replicate 16 0), b64EncBytes ctBytesW]
    ∧ decryptSecret idCipher ('!' :: encryptSecret idCipher (List.replicate 16 0) [1, 2, 3])
      = Except.ok [1, 2, 3] :=
  ⟨rfl, rfl, rfl⟩

/-- C8 amended: an encoded secret that does not split into exactly two
colon-separated parts fails with the format error and yields no value. Base64
decoding of the two parts is lenient (Node semantics: non-alphabet characters
are skipped, the first padding character stops decoding), so a non-base64
segment does not by itself make decryption fail; decryption fails with the
crypto error whenever the leniently decoded IV is not 16 bytes or the
leniently decoded ciphertext is truncated to a non-whole number of blocks,
and any successful decryption certifies that the lenient decoding of both
parts was well formed and the padding valid. -/
theorem C8_decrypt_malformed (bc : BlockCipher) (s : List Char) :
    ((splitOnChar ':' s).length ≠ 2 → decryptSecret bc s = Except.error VaultErr.format)
    ∧ (∀ a b, splitOnChar ':' s = [a, b] → (b64DecBytes a).length ≠ 16 →
        decryptSecret bc s = Except.error VaultErr.crypto)
    ∧ (∀ a b, splitOnChar ':' s = [a, b] → (b64DecBytes b).length % 16 ≠ 0 →
        decryptSecret bc s = Except.error VaultErr.crypto)
    ∧ (∀ p, decryptSecret bc s = Except.ok p →
        ∃ a b, splitOnChar ':' s = [a, b] ∧ (b64DecBytes a).length = 16 ∧
          (b64DecBytes b).length % 16 = 0 ∧
          pkcs7unpad (List.flatten (cbcDecBlocks bc (b64DecBytes a)
            (chunks16 (b64DecBytes b)))) = some p) := by
  refine ⟨?_, ?_, ?_, ?_⟩
  · intro hlen
    unfold decryptSecret
    cases hs : splitOnChar ':' s with
    | nil => rfl
    | cons a t =>
      cases t with
      | nil => rfl
      | cons b t2 =>
        cases t2 with
        | nil => exact absurd (by rw [hs]; rfl) hlen
        | cons c t3 => rfl
  · intro a b hs hlen
    simp [decryptSecret, hs, hlen]
  · intro a b hs hmod
    by_cases hiv : (b64DecBytes a).length = 16
    · simp [decryptSecret, hs, hiv, hmod]
    · simp [decryptSecret, hs, hiv]
  · intro p hp
    cases hs : splitOnChar ':' s with
    | nil => simp [decryptSecret, hs] at hp
    | cons a t =>
      cases t with
      | nil => simp [decryptSecret, hs] at hp
      | cons b t2 =>
        cases t2 with
        | cons c t3 => simp [decryptSecret, hs] at hp
        | nil =>
          by_cases hiv : (b64DecBytes a).length = 16
          · by_cases hmod : (b64DecBytes b).length % 16 = 0
            · cases hun : pkcs7unpad (List.flatten (cbcDecBlocks bc (b64DecBytes a)
                  (chunks16 (b64DecBytes b)))) with
              | none => simp [decryptSecret, hs, hiv, hmod, hun] at hp
              | some q =>
                refine ⟨a, b, rfl, hiv, hmod, ?_⟩
                simp [decryptSecret, hs, hiv, hmod, hun] at hp
                rw [hun]
                simp [hp]
            · simp [decryptSecret, hs, hiv, hmod] at hp
          · simp [decryptSecret, hs, hiv] at hp

/-- Witness for the amended malformed-secret claim: a one-part secret fails
with the format error, a short decoded IV and a truncated decoded ciphertext
fail with the crypto error, and a successful decryption certifies the
well-formed lenient decoding of the canonical secret. -/
theorem C8_decrypt_malformed_witness :
    decryptSecret idCipher ['a'] = Except.error VaultErr.format
    ∧ decryptSecret idCipher ("QQ==:QQ==".toList) = Except.error VaultErr.crypto
    ∧ decryptSecret idCipher ("AAAAAAAAAAAAAAAAAAAAAA==:QQ==".toList)
        = Except.error VaultErr.crypto
    ∧ ∃ a b, splitOnChar ':' (encryptSecret idCipher (List.replicate 16 0) [1, 2, 3]) = [a, b]
        ∧ (b64DecBytes a).length = 16 ∧ (b64DecBytes b).length % 16 = 0
        ∧ pkcs7unpad (List.flatten (cbcDecBlocks idCipher (b64DecBytes a)
            (chunks16 (b64DecBytes b)))) = some [1, 2, 3] := by
  refine ⟨?_, ?_, ?_, ?_⟩
  · exact (C8_decrypt_malformed idCipher ['a']).1 (by decide)
  · exact (C8_decrypt_malformed idCipher _).2.1 ("QQ==".toList) ("QQ==".toList)
      (by decide) (by decide)
  · exact (C8_decrypt_malformed idCipher _).2.2.1 ("AAAAAAAAAAAAAAAAAAAAAA==".toList)
      ("QQ==".toList) (by decide) (by decide)
  · exact (C8_decrypt_malformed idCipher
      (encryptSecret idCipher (List.replicate 16 0) [1, 2, 3])).2.2.2 [1, 2, 3] (by rfl)

/-- C7: the swap-quote client fails with a quote error when the quote call does
not succeed or returns no routes; otherwise it POSTs exactly the first returned
route with the payer public key, fails with a swap-build error when that call
does not succeed or omits the transaction payload, and returns the payload on
success. -/
theorem C7_swap_client_protocol (jup : JupEnv) (pub im om : String) (amt : Int) (sl : Rat) :
    ((jup.fetchQuote im om amt sl).ok = false →
      getJupiterSwapTransaction jup pub im om amt sl
        = Except.error (JupErr.quote ("Jupiter quote API error: "
            ++ (jup.fetchQuote im om amt sl).statusText)))
    ∧ ((jup.fetchQuote im om amt sl).ok = true →
        ((jup.fetchQuote im om amt sl).routes = none
          ∨ (jup.fetchQuote im om amt sl).routes = some []) →
        getJupiterSwapTransaction jup pub im om amt sl
          = Except.error (JupErr.quote "No swap routes found from Jupiter."))
    ∧ (∀ r rs, (jup.fetchQuote im om amt sl).ok = true →
        (jup.fetchQuote im om amt sl).routes = some (r :: rs) →
        getJupiterSwapTransaction jup pub im om amt sl =
          (if (jup.fetchSwap r pub).ok = false then
            Except.error (JupErr.swapBuild ("Jupiter swap API error: "
              ++ (jup.fetchSwap r pub).statusText))
          else
            match (jup.fetchSwap r pub).swapTransaction with
            | none =>
              Except.error (JupErr.swapBuild "Failed to obtain swap transaction from Jupiter.")
            | some tx => Except.ok tx)) := by
  refine ⟨?_, ?_, ?_⟩
  · intro hok
    simp [getJupiterSwapTransaction, hok]
  · intro hok hroutes
    rcases hroutes with hr | hr
    · simp [getJupiterSwapTransaction, hok, hr]
    · simp [getJupiterSwapTransaction, hok, hr]
  · intro r rs hok hr
    simp [getJupiterSwapTransaction, hok, hr]

/-- Aggregator stub whose quote call fails. -/
def jupFailQuote : JupEnv :=
  ⟨fun _ _ _ _ => ⟨false, "Bad Gateway", none⟩, fun _ _ => ⟨true, "OK", some "TX"⟩⟩

/-- Aggregator stub returning an empty route list. -/
def jupNoRoutes : JupEnv :=
  ⟨fun _ _ _ _ => ⟨true, "OK", some []⟩, fun _ _ => ⟨true, "OK", some "TX"⟩⟩

/-- Aggregator stub returning two routes and a transaction payload. -/
def jupGood : JupEnv :=
  ⟨fun _ _ _ _ => ⟨true, "OK", some ["R1", "R2"]⟩, fun _ _ => ⟨true, "OK", some "TX"⟩⟩

/-- Witness for the swap-quote client protocol on three concrete stubs. -/
theorem C7_swap_client_protocol_witness :
    getJupiterSwapTransaction jupFailQuote "payer" "IM" "OM" 5 1
      = Except.error (JupErr.quote "Jupiter quote API error: Bad Gateway")
    ∧ getJupiterSwapTransaction jupNoRoutes "payer" "IM" "OM" 5 1
      = Except.error (JupErr.quote "No swap routes found from Jupiter.")
    ∧ getJupiterSwapTransaction jupGood "payer" "IM" "OM" 5 1 = Except.ok "TX" := by
  refine ⟨?_, ?_, ?_⟩
  · exact (C7_swap_client_protocol jupFailQuote "payer" "IM" "OM" 5 1).1 rfl
  · exact (C7_swap_client_protocol jupNoRoutes "payer" "IM" "OM" 5 1).2.1 rfl (Or.inr rfl)
  · exact (C7_swap_client_protocol jupGood "payer" "IM" "OM" 5 1).2.2 "R1" ["R2"] rfl rfl

/-- The buy and sell handler translations are definitionally identical; shared
helper used to transfer any buy-handler fact to the sell handler. -/
theorem apiBuy_eq_apiSell (env : Env) (req : TradeReq) : apiBuy env req = apiSell env req := rfl

/-- C9: on every identical request body and identical store, aggregator and
chain-network behavior, the buy and sell endpoints produce the same response
and the same effects; the handlers execute identical logic. -/
theorem C9_buy_sell_identical : ∀ (env : Env) (req : TradeReq),
    apiBuy env req = apiSell env req := fun _ _ => rfl

/-- A validation failure returns 400 from the buy handler with no effects. -/
theorem missing_fields_buy (env : Env) (req : TradeReq)
    (h : (falsyS req.telegramId || falsyN req.tradeAmount || falsyN req.slippage ||
      falsyS req.inputMint || falsyS req.outputMint) = true) :
    apiBuy env req = (⟨400, RespBody.err "Missing required fields."⟩, ⟨0, 0, 0, 0, 0⟩) := by
  unfold apiBuy
  rw [if_pos h]

/-- C4: a request to either endpoint with any of the five required fields
missing or falsy gets a 400 response, and the handler performs no store
lookup, no aggregator call and no chain-network call. -/
theorem C4_missing_fields (env : Env) (req : TradeReq)
    (h : (falsyS req.telegramId || falsyN req.tradeAmount || falsyN req.slippage ||
      falsyS req.inputMint || falsyS req.outputMint) = true) :
    apiBuy env req = (⟨400, RespBody.err "Missing required fields."⟩, ⟨0, 0, 0, 0, 0⟩)
    ∧ apiSell env req = (⟨400, RespBody.err "Missing required fields."⟩, ⟨0, 0, 0, 0, 0⟩) :=
  ⟨missing_fields_buy env req h,
    (apiBuy_eq_apiSell env req).symm.trans (missing_fields_buy env req h)⟩

/-- An unknown user or an empty wallet list returns 400 from the buy handler
after only the store lookup. -/
theorem user_not_found_buy (env : Env) (req : TradeReq) (tid : String) (ta sl : Rat)
    (im om : String)
    (htid : req.telegramId = some tid) (htid0 : tid ≠ "")
    (hta : req.tradeAmount = some ta) (hta0 : ta ≠ 0)
    (hsl : req.slippage = some sl) (hsl0 : sl ≠ 0)
    (him : req.inputMint = some im) (him0 : im ≠ "")
    (hom : req.outputMint = some om) (hom0 : om ≠ "")
    (huser : env.findUser tid = none ∨ ∃ u, env.findUser tid = some u ∧ u.wallets = []) :
    apiBuy env req = (⟨400, RespBody.err "User not found or no wallets available."⟩,
      ⟨1, 0, 0, 0, 0⟩) := by
  rcases huser with hu | ⟨u, hu, hw⟩
  · simp [apiBuy, htid, hta, hsl, him, hom, falsyS, falsyN, htid0, hta0, hsl0, him0, hom0, hu]
  · simp [apiBuy, htid, hta, hsl, him, hom, falsyS, falsyN, htid0, hta0, hsl0, him0, hom0,
      hu, hw]

/-- C5: a field-complete request whose telegram id matches no stored user, or a
user with an empty wallet list, gets a 400 response from either endpoint, with
only the store lookup performed and no aggregator or broadcast call. -/
theorem C5_user_not_found (env : Env) (req : TradeReq) (tid : String) (ta sl : Rat)
    (im om : String)
    (htid : req.telegramId = some tid) (htid0 : tid ≠ "")
    (hta : req.tradeAmount = some ta) (hta0 : ta ≠ 0)
    (hsl : req.slippage = some sl) (hsl0 : sl ≠ 0)
    (him : req.inputMint = some im) (him0 : im ≠ "")
    (hom : req.outputMint = some om) (hom0 : om ≠ "")
    (huser : env.findUser tid = none ∨ ∃ u, env.findUser tid = some u ∧ u.wallets = []) :
    apiBuy env req = (⟨400, RespBody.err "User not found or no wallets available."⟩,
      ⟨1, 0, 0, 0, 0⟩)
    ∧ apiSell env req = (⟨400, RespBody.err "User not found or no wallets available."⟩,
      ⟨1, 0, 0, 0, 0⟩) :=
  ⟨user_not_found_buy env req tid ta sl im om htid htid0 hta hta0 hsl hsl0 him him0 hom hom0
      huser,
    (apiBuy_eq_apiSell env req).symm.trans
      (user_not_found_buy env req tid ta sl im om htid htid0 hta hta0 hsl hsl0 him him0 hom
        hom0 huser)⟩

/-- An active-wallet index outside the wallet list makes the buy handler throw
while reading the missing wallet record, caught as a 500 response. -/
theorem wallet_index_oob_buy (env : Env) (req : TradeReq) (tid : String) (ta sl : Rat)
    (im om : String)
    (htid : req.telegramId = some tid) (htid0 : tid ≠ "")
    (hta : req.tradeAmount = some ta) (hta0 : ta ≠ 0)
    (hsl : req.slippage = some sl) (hsl0 : sl ≠ 0)
    (him : req.inputMint = some im) (him0 : im ≠ "")
    (hom : req.outputMint = some om) (hom0 : om ≠ "")
    (user : UserRec) (huser : env.findUser tid = some user)
    (hw : user.wallets ≠ [])
    (hidx : user.activeWalletIndex < 0
      ∨ (user.wallets.length : Int) ≤ user.activeWalletIndex) :
    apiBuy env req = (⟨500, RespBody.err "Cannot read properties of undefined (reading 'publicKey')"⟩,
      ⟨1, 0, 0, 0, 0⟩) := by
  have hnone : jsIndex user.wallets user.activeWalletIndex = none := by
    unfold jsIndex
    rcases hidx with hneg | hge
    · rw [if_pos hneg]
    · rw [if_neg (by omega)]
      apply List.getElem?_eq_none
      omega
  have hwlen : user.wallets.length ≠ 0 := by
    intro h0
    exact hw (List.eq_nil_of_length_eq_zero h0)
  simp [apiBuy, htid, hta, hsl, him, hom, falsyS, falsyN, htid0, hta0, hsl0, him0, hom0,
    huser, hwlen, hnone]

/-- C10: a field-complete request for an existing user with a nonempty wallet
list but an out-of-bounds active-wallet index fails with 500 via the
catch-all handler, not 400, and no aggregator or broadcast call is made. -/
theorem C10_wallet_index_oob (env : Env) (req : TradeReq) (tid : String) (ta sl : Rat)
    (im om : String)
    (htid : req.telegramId = some tid) (htid0 : tid ≠ "")
    (hta : req.tradeAmount = some ta) (hta0 : ta ≠ 0)
    (hsl : req.slippage = some sl) (hsl0 : sl ≠ 0)
    (him : req.inputMint = some im) (him0 : im ≠ "")
    (hom : req.outputMint = some om) (hom0 : om ≠ "")
    (user : UserRec) (huser : env.findUser tid = some user)
    (hw : user.wallets ≠ [])
    (hidx : user.activeWalletIndex < 0
      ∨ (user.wallets.length : Int) ≤ user.activeWalletIndex) :
    apiBuy env req = (⟨500, RespBody.err "Cannot read properties of undefined (reading 'publicKey')"⟩,
      ⟨1, 0, 0, 0, 0⟩)
    ∧ apiSell env req = (⟨500, RespBody.err "Cannot read properties of undefined (reading 'publicKey')"⟩,
      ⟨1, 0, 0, 0, 0⟩) :=
  ⟨wallet_index_oob_buy env req tid ta sl im om htid htid0 hta hta0 hsl hsl0 him him0 hom hom0
      user huser hw hidx,
    (apiBuy_eq_apiSell env req).symm.trans
      (wallet_index_oob_buy env req tid ta sl im om htid htid0 hta hta0 hsl hsl0 him him0 hom
        hom0 user huser hw hidx)⟩

/-- A public-key mismatch after decryption returns 500 from the buy handler
with no aggregator, sign or broadcast call. -/
theorem pubkey_mismatch_buy (env : Env) (req : TradeReq) (tid : String) (ta sl : Rat)
    (im om : String)
    (htid : req.telegramId = some tid) (htid0 : tid ≠ "")
    (hta : req.tradeAmount = some ta) (hta0 : ta ≠ 0)
    (hsl : req.slippage = some sl) (hsl0 : sl ≠ 0)
    (him : req.inputMint = some im) (him0 : im ≠ "")
    (hom : req.outputMint = some om) (hom0 : om ≠ "")
    (user : UserRec) (huser : env.findUser tid = some user)
    (w : Wallet) (hidx : jsIndex user.wallets user.activeWalletIndex = some w)
    (pk : String) (hpk : env.parsePublicKey w.publicKey = some pk)
    (sec : List Nat) (hdec : decryptSecret env.bc w.secretKey = Except.ok sec)
    (raw : List Nat) (hraw : env.bs58decode sec = some raw)
    (kp : String) (hkp : env.keypairPub raw = some kp)
    (hne : kp ≠ pk) :
    apiBuy env req = (⟨500, RespBody.err "Wallet decryption error: public key mismatch."⟩,
      ⟨1, 0, 0, 0, 0⟩) := by
  have hwlen : user.wallets.length ≠ 0 := by
    unfold jsIndex at hidx
    by_cases hneg : user.activeWalletIndex < 0
    · rw [if_pos hneg] at hidx
      exact absurd hidx (by simp)
    · rw [if_neg hneg] at hidx
      intro h0
      rw [List.getElem?_eq_none (by omega)] at hidx
      exact absurd hidx (by simp)
  simp [apiBuy, htid, hta, hsl, him, hom, falsyS, falsyN, htid0, hta0, hsl0, him0, hom0,
    huser, hwlen, hidx, hpk, hdec, hraw, hkp, hne]

/-- C2: whenever the public key reconstructed from the decrypted secret differs
from the stored wallet public key, either endpoint responds 500 and the handler
never signs and never broadcasts (and makes no aggregator call either). -/
theorem C2_pubkey_mismatch (env : Env) (req : TradeReq) (tid : String) (ta sl : Rat)
    (im om : String)
    (htid : req.telegramId = some tid) (htid0 : tid ≠ "")
    (hta : req.tradeAmount = some ta) (hta0 : ta ≠ 0)
    (hsl : req.slippage = some sl) (hsl0 : sl ≠ 0)
    (him : req.inputMint = some im) (him0 : im ≠ "")
    (hom : req.outputMint = some om) (hom0 : om ≠ "")
    (user : UserRec) (huser : env.findUser tid = some user)
    (w : Wallet) (hidx : jsIndex user.wallets user.activeWalletIndex = some w)
    (pk : String) (hpk : env.parsePublicKey w.publicKey = some pk)
    (sec : List Nat) (hdec : decryptSecret env.bc w.secretKey = Except.ok sec)
    (raw : List Nat) (hraw : env.bs58decode sec = some raw)
    (kp : String) (hkp : env.keypairPub raw = some kp)
    (hne : kp ≠ pk) :
    apiBuy env req = (⟨500, RespBody.err "Wallet decryption error: public key mismatch."⟩,
      ⟨1, 0, 0, 0, 0⟩)
    ∧ apiSell env req = (⟨500, RespBody.err "Wallet decryption error: public key mismatch."⟩,
      ⟨1, 0, 0, 0, 0⟩) :=
  ⟨pubkey_mismatch_buy env req tid ta sl im om htid htid0 hta hta0 hsl hsl0 him him0 hom hom0
      user huser w hidx pk hpk sec hdec raw hraw kp hkp hne,
    (apiBuy_eq_apiSell env req).symm.trans
      (pubkey_mismatch_buy env req tid ta sl im om htid htid0 hta hta0 hsl hsl0 him him0 hom
        hom0 user huser w hidx pk hpk sec hdec raw hraw kp hkp hne)⟩

/-- C3: any request, on any route, whose api-key header is absent or different
from the configured key receives the 401 unauthorized response with the empty
effect trace, independently of the request body. -/
theorem C3_unauthorized (env : Env) (apiKey : String) (hdr : Option String) (path : String)
    (h : hdr = none ∨ hdr ≠ some apiKey) :
    (∀ req, appHandle env apiKey hdr path req
      = (⟨401, RespBody.err "Unauthorized: Invalid API key"⟩, tr0))
    ∧ ∀ req1 req2, appHandle env apiKey hdr path req1 = appHandle env apiKey hdr path req2 := by
  have hchk : checkApiKey apiKey hdr
      = some ⟨401, RespBody.err "Unauthorized: Invalid API key"⟩ := by
    rcases h with rfl | hne
    · simp [checkApiKey, falsyS]
    · simp [checkApiKey, hne]
  constructor
  · intro req
    unfold appHandle
    rw [hchk]
    rfl
  · intro req1 req2
    unfold appHandle
    rw [hchk]

/-- C6 as stated fails on the code: Math.floor is truncation toward negative
infinity, which differs from truncation toward zero on negative non-integer
amounts; at tradeAmount -3/2000000000 the code computes -2 base units while
truncation toward zero would give -1. -/
theorem C6_amount_counterexample :
    ¬ (amountBaseUnits (-(3 : Rat) / 2000000000)
        = truncTowardZero (-(3 : Rat) / 2000000000 * 1000000000)) := by
  have h1 : amountBaseUnits (-(3 : Rat) / 2000000000) = -2 := by
    unfold amountBaseUnits mathFloor
    norm_num
  have h2 : truncTowardZero (-(3 : Rat) / 2000000000 * 1000000000) = -1 := by
    unfold truncTowardZero mathFloor
    norm_num
  rw [h1, h2]
  decide

/-- C6 amended: the amount conversion multiplies by the 10^9 scale and applies
the floor; on every nonnegative trade amount this coincides with truncation
toward zero, tradeAmount 1/10 yields exactly 100000000 base units, and the
non-exact fraction 1234567891/10^10 truncates to 123456789 rather than
rounding. -/
theorem C6_amount_conversion :
    (∀ t : Rat, 0 ≤ t → amountBaseUnits t = truncTowardZero (t * 1000000000))
    ∧ amountBaseUnits (1 / 10) = 100000000
    ∧ amountBaseUnits (1234567891 / 10000000000) = 123456789 := by
  refine ⟨?_, ?_, ?_⟩
  · intro t ht
    have hnn : (0 : Rat) ≤ t * 1000000000 := mul_nonneg ht (by norm_num)
    unfold amountBaseUnits truncTowardZero
    rw [if_neg (not_lt.mpr hnn)]
  · unfold amountBaseUnits mathFloor
    norm_num
  · unfold amountBaseUnits mathFloor
    norm_num

/-- Witness for the amended amount-conversion claim at tradeAmount 1/10. -/
theorem C6_amount_conversion_witness :
    amountBaseUnits (1 / 10) = truncTowardZero ((1 / 10 : Rat) * 1000000000) :=
  C6_amount_conversion.1 (1 / 10) (by norm_num)

/-- A concrete encrypted secret produced by the vault under the identity cipher. -/
def encW : List Char := encryptSecret idCipher (List.replicate 16 0) [1, 2, 3]

/-- A concrete stored wallet. -/
def walletW : Wallet := ⟨"Main", "PK1", encW⟩

/-- A concrete user whose single wallet is at the active index. -/
def userW : UserRec := ⟨"u1", [walletW], 0, ⟨⟨1 / 2, 1 / 10⟩, ⟨1 / 2, 1 / 10⟩⟩⟩

/-- A concrete user whose active-wallet index is out of bounds. -/
def userOOB : UserRec := ⟨"u2", [walletW], 5, ⟨⟨1 / 2, 1 / 10⟩, ⟨1 / 2, 1 / 10⟩⟩⟩

/-- A concrete environment where key reconstruction matches the stored key. -/
def baseEnv : Env :=
  ⟨idCipher,
   fun t => if t = "u1" then some userW else if t = "u2" then some userOOB else none,
   fun s => some s,
   fun l => some l,
   fun _ => some "PK1",
   jupGood,
   fun s => some s,
   fun _ _ => some "RAW",
   fun _ => Except.ok "SIG",
   fun _ => Except.ok ()⟩

/-- A concrete environment where key reconstruction yields a mismatching key. -/
def mismatchEnv : Env :=
  ⟨idCipher,
   fun t => if t = "u1" then some userW else if t = "u2" then some userOOB else none,
   fun s => some s,
   fun l => some l,
   fun _ => some "PKX",
   jupGood,
   fun s => some s,
   fun _ _ => some "RAW",
   fun _ => Except.ok "SIG",
   fun _ => Except.ok ()⟩

/-- A complete trade request for the matching user. -/
def reqW : TradeReq := ⟨some "u1", some (1 / 10), some (1 / 2), some "IM", some "OM"⟩

/-- A complete trade request for the out-of-bounds user. -/
def reqOOB : TradeReq := ⟨some "u2", some (1 / 10), some (1 / 2), some "IM", some "OM"⟩

/-- A complete trade request for an unknown user. -/
def reqNoUser : TradeReq := ⟨some "zz", some (1 / 10), some (1 / 2), some "IM", some "OM"⟩

/-- A trade request missing its telegram id. -/
def reqMissing : TradeReq := ⟨none, some (1 / 10), some (1 / 2), some "IM", some "OM"⟩

/-- Witness for the missing-field claim at a concrete request. -/
theorem C4_missing_fields_witness :
    apiBuy baseEnv reqMissing = (⟨400, RespBody.err "Missing required fields."⟩, ⟨0, 0, 0, 0, 0⟩)
    ∧ apiSell baseEnv reqMissing
      = (⟨400, RespBody.err "Missing required fields."⟩, ⟨0, 0, 0, 0, 0⟩) :=
  C4_missing_fields baseEnv reqMissing rfl

/-- Witness for the unknown-user claim at a concrete request. -/
theorem C5_user_not_found_witness :
    apiBuy baseEnv reqNoUser = (⟨400, RespBody.err "User not found or no wallets available."⟩,
      ⟨1, 0, 0, 0, 0⟩)
    ∧ apiSell baseEnv reqNoUser = (⟨400, RespBody.err "User not found or no wallets available."⟩,
      ⟨1, 0, 0, 0, 0⟩) :=
  C5_user_not_found baseEnv reqNoUser "zz" (1 / 10) (1 / 2) "IM" "OM"
    rfl (by decide) rfl (by norm_num) rfl (by norm_num) rfl (by decide) rfl (by decide)
    (Or.inl rfl)

/-- Witness for the out-of-bounds wallet-index claim at a concrete user. -/
theorem C10_wallet_index_oob_witness :
    apiBuy baseEnv reqOOB
      = (⟨500, RespBody.err "Cannot read properties of undefined (reading 'publicKey')"⟩,
        ⟨1, 0, 0, 0, 0⟩)
    ∧ apiSell baseEnv reqOOB
      = (⟨500, RespBody.err "Cannot read properties of undefined (reading 'publicKey')"⟩,
        ⟨1, 0, 0, 0, 0⟩) :=
  C10_wallet_index_oob baseEnv reqOOB "u2" (1 / 10) (1 / 2) "IM" "OM"
    rfl (by decide) rfl (by norm_num) rfl (by norm_num) rfl (by decide) rfl (by decide)
    userOOB rfl (by simp [userOOB]) (Or.inr (by decide))

/-- Witness for the public-key mismatch claim at a concrete mismatching store. -/
theorem C2_pubkey_mismatch_witness :
    apiBuy mismatchEnv reqW
      = (⟨500, RespBody.err "Wallet decryption error: public key mismatch."⟩, ⟨1, 0, 0, 0, 0⟩)
    ∧ apiSell mismatchEnv reqW
      = (⟨500, RespBody.err "Wallet decryption error: public key mismatch."⟩, ⟨1, 0, 0, 0, 0⟩) :=
  C2_pubkey_mismatch mismatchEnv reqW "u1" (1 / 10) (1 / 2) "IM" "OM"
    rfl (by decide) rfl (by norm_num) rfl (by norm_num) rfl (by decide) rfl (by decide)
    userW rfl walletW rfl "PK1" rfl [1, 2, 3] rfl [1, 2, 3] rfl "PKX" rfl (by decide)

/-- Witness for the unauthorized claim at a concrete absent header. -/
theorem C3_unauthorized_witness :
    appHandle baseEnv "KEY" none "/api/buy" reqW
      = (⟨401, RespBody.err "Unauthorized: Invalid API key"⟩, tr0) :=
  (C3_unauthorized baseEnv "KEY" none "/api/buy" (Or.inl rfl)).1 reqW
